import Mathlib

/-
Shallow embedding of the span-annotation engine of src/app.py.

Strings from the Python program are modelled as Lean String where they act as
opaque keys and labels, and as List Char where the program indexes into them
(document text, search needles, gazetteer terms).  Python dicts are modelled as
insertion-ordered association lists with the usual unique-key operations
(assignment keeps the position of an existing key, setdefault and fresh
assignment append at the end, pop-with-default removes the key and ignores an
absent one).  Case-insensitive matching is modelled by comparing images under
Char.toLower.
-/

-- ------------------------- Data Model (src/app.py lines 28-42) -------------------------

/-- Python dataclass Annotation (doc_id, start, end, text, label, attrs).
The Python field named end is called end_ here because end is a Lean keyword. -/
structure Annotation where
  doc_id : String
  start : Nat
  end_ : Nat
  text : List Char
  label : String
  attrs : List (String × String)
  deriving DecidableEq

/-- Python dataclass Relation (doc_id, head_idx, tail_idx, label); head_idx and
tail_idx index into the annotation list of the document. -/
structure Relation where
  doc_id : String
  head_idx : Nat
  tail_idx : Nat
  label : String
  deriving DecidableEq

/-- Per-document transient search state, src/app.py line 440:
a dict with keys term, positions and i. -/
structure SearchState where
  term : String
  positions : List (Nat × Nat)
  i : Nat
  deriving DecidableEq

/-- The session state of the app: docs, anns, relations and search, exactly the
four per-document tables initialized at src/app.py lines 190-199. -/
structure Store where
  docs : List (String × String)
  anns : List (String × List Annotation)
  relations : List (String × List Relation)
  search : List (String × SearchState)
  deriving DecidableEq

-- ------------------------- Python dict operations on assoc lists -------------------------

/-- Dict lookup: value of the first entry with the given key. -/
def dictGet {β : Type} : List (String × β) → String → Option β
  | [], _ => none
  | p :: t, k => if p.1 = k then some p.2 else dictGet t k

/-- Python dict.get(k, d). -/
def dictGetD {β : Type} (m : List (String × β)) (k : String) (d : β) : β :=
  (dictGet m k).getD d

/-- Python dict assignment m[k] = v: update in place when the key exists,
append at the end otherwise. -/
def dictSet {β : Type} : List (String × β) → String → β → List (String × β)
  | [], k, v => [(k, v)]
  | p :: t, k, v => if p.1 = k then (k, v) :: t else p :: dictSet t k v

/-- Python dict.setdefault(k, v): append (k, v) only when the key is absent. -/
def dictSetdefault {β : Type} (m : List (String × β)) (k : String) (v : β) :
    List (String × β) :=
  if (dictGet m k).isSome then m else m ++ [(k, v)]

/-- Python dict.pop(k, None): drop the entry with the given key, no-op when absent. -/
def dictPop {β : Type} : List (String × β) → String → List (String × β)
  | [], _ => []
  | p :: t, k => if p.1 = k then dictPop t k else p :: dictPop t k

-- ------------------------- doc id formatting (src/app.py line 115) -------------------------

/-- Decimal digit as a character. -/
def digitChar (d : Nat) : Char := Char.ofNat (48 + d % 10)

/-- Decimal digits of n, most significant first; fuel-based recursion. -/
def natDigitsAux : Nat → Nat → List Char
  | 0, _ => []
  | fuel + 1, n => if n < 10 then [digitChar n] else natDigitsAux fuel (n / 10) ++ [digitChar (n % 10)]

/-- Decimal digits of n. -/
def natDigits (n : Nat) : List Char := natDigitsAux (n + 1) n

/-- Python format string f"doc_\x7blen+1:04d\x7d": the word doc_, then the number
zero-padded to width four. -/
def fmtDocId (n : Nat) : String :=
  let ds := natDigits n
  String.mk ('d' :: 'o' :: 'c' :: '_' :: (List.replicate (4 - ds.length) '0' ++ ds))

-- ------------------------- document add / delete -------------------------

/-- src/app.py lines 114-117, function _add_doc: compute the id from the current
number of documents, assign the text under that id, setdefault an empty
annotation list.  The relations table is not touched. -/
def add_doc (st : Store) (text : String) : Store :=
  { st with
    docs := dictSet st.docs (fmtDocId (st.docs.length + 1)) text,
    anns := dictSetdefault st.anns (fmtDocId (st.docs.length + 1)) [] }

/-- src/app.py lines 429-433, the delete-current-document handler: pop the id
from docs, anns and relations (each with default None).  The search table is
not touched by this handler. -/
def removeDocument (st : Store) (docId : String) : Store :=
  { st with
    docs := dictPop st.docs docId,
    anns := dictPop st.anns docId,
    relations := dictPop st.relations docId }

/-- The initial empty session state. -/
def emptyStore : Store := { docs := [], anns := [], relations := [], search := [] }

/-- A state whose only document also has transient search state. -/
def staleSearchStore : Store :=
  { docs := [("doc_0001", "text")]
    anns := [("doc_0001", [])]
    relations := []
    search := [("doc_0001", { term := "te", positions := [(0, 2)], i := 0 })] }

/-- Two documents added to the empty store. -/
def storeA : Store := add_doc (add_doc emptyStore "t1") "t2"

/-- storeA with the first document deleted. -/
def storeB : Store := removeDocument storeA "doc_0001"

/-- A third document added after the deletion. -/
def storeC : Store := add_doc storeB "t3"

-- ------------------------- search helper find_all (src/app.py lines 155-158) -------------------------

/-- Characters the Python needle.strip() call removes. -/
def isSpacePy (c : Char) : Bool :=
  c == ' ' || c == '\t' || c == '\n' || c == '\r' || c == Char.ofNat 11 || c == Char.ofNat 12

/-- Image of a string under lower-casing. -/
def lowerStr (s : List Char) : List Char := s.map Char.toLower

/-- Python slice txt[a:b] for natural a and b (clamping at the length). -/
def slicePy (s : List Char) (a b : Nat) : List Char := (s.take b).drop a

/-- The escaped needle matches the haystack at position i, case-insensitively:
the slice of the needle length starting at i lower-cases to the needle. -/
def matchesAt (hay nd : List Char) (i : Nat) : Bool :=
  lowerStr (slicePy hay i (i + nd.length)) == lowerStr nd

/-- Left-to-right scan of re.finditer over the escaped needle: at each position
try a match; on success record (i, i + len) and resume at the match end (the
matches of finditer never overlap), otherwise advance one position.  Fuel-based
recursion; haystack length + 1 fuel covers the whole scan.  find_all only calls
this with a nonempty needle. -/
def findAllAux (hay nd : List Char) : Nat → Nat → List (Nat × Nat)
  | _, 0 => []
  | i, fuel + 1 =>
    if i + nd.length ≤ hay.length then
      if matchesAt hay nd i then
        (i, i + nd.length) :: findAllAux hay nd (i + nd.length) fuel
      else
        findAllAux hay nd (i + 1) fuel
    else []

/-- src/app.py lines 155-158, function find_all: empty or whitespace-only
needle gives no matches, otherwise the finditer scan over the escaped needle
with the IGNORECASE flag. -/
def find_all (haystack needle : List Char) : List (Nat × Nat) :=
  if needle.isEmpty || needle.all isSpacePy then []
  else findAllAux haystack needle 0 (haystack.length + 1)

-- ------------------------- rule annotator (src/app.py lines 161-187) -------------------------

/-- A word character in the sense of the WORD_BOUND lookarounds at src/app.py
line 161: A-Z, a-z, 0-9 or underscore. -/
def isWordChar (c : Char) : Bool :=
  ('A' ≤ c && c ≤ 'Z') || ('a' ≤ c && c ≤ 'z') || ('0' ≤ c && c ≤ '9') || c == '_'

/-- The characters the source treats as metacharacters at src/app.py line 171,
the raw Python string containing dot, star, plus, question mark, brackets,
parentheses, braces, bar and backslash. -/
def isMetaChar (c : Char) : Bool :=
  c == '.' || c == '*' || c == '+' || c == '?' || c == '[' || c == ']' ||
  c == '(' || c == ')' || c == Char.ofNat 123 || c == Char.ofNat 125 ||
  c == '|' || c == '\\'

/-- The term contains a metacharacter, so the source uses it verbatim instead
of wrapping it in WORD_BOUND. -/
def hasMeta (term : List Char) : Bool := term.any isMetaChar

/-- The WORD_BOUND match of a plain term at position i: the escaped term
matches there (case-insensitively when ci is set) and the characters just
before and just after, when they exist, are not word characters. -/
def wordMatchAt (txt term : List Char) (ci : Bool) (i : Nat) : Bool :=
  decide (i + term.length ≤ txt.length) &&
  (if ci then lowerStr (slicePy txt i (i + term.length)) == lowerStr term
   else slicePy txt i (i + term.length) == term) &&
  (i == 0 || !(isWordChar (txt.getD (i - 1) ' '))) &&
  !(isWordChar (txt.getD (i + term.length) ' '))

/-- finditer scan for the WORD_BOUND form of a plain term, same non-overlapping
stepping as findAllAux. -/
def wordFindAllAux (txt term : List Char) (ci : Bool) : Nat → Nat → List (Nat × Nat)
  | _, 0 => []
  | i, fuel + 1 =>
    if i + term.length ≤ txt.length then
      if wordMatchAt txt term ci i then
        (i, i + term.length) :: wordFindAllAux txt term ci (i + term.length) fuel
      else
        wordFindAllAux txt term ci (i + 1) fuel
    else []

/-- All WORD_BOUND matches of a plain term in the text. -/
def wordFindAll (txt term : List Char) (ci : Bool) : List (Nat × Nat) :=
  wordFindAllAux txt term ci 0 (txt.length + 1)

/-- The annotation appended for one rule match at src/app.py lines 176-178:
Annotation(doc_id, s, e, txt[s:e], lbl, attrs with source gazetteer). -/
def mkGazAnn (docId : String) (txt : List Char) (lbl : String) (p : Nat × Nat) :
    Annotation :=
  { doc_id := docId, start := p.1, end_ := p.2, text := slicePy txt p.1 p.2,
    label := lbl, attrs := [("source", "gazetteer")] }

/-- The span list one rule produces, src/app.py lines 169-173: a term without
metacharacters goes through the WORD_BOUND literal engine, anything else is
handed verbatim to the re engine, which may fail on a malformed pattern.  The
re engine for verbatim patterns is a parameter of the model; the error value
models the re.error exception re.finditer raises on a bad pattern. -/
def ruleSpans (engineFind : String → List Char → Except String (List (Nat × Nat)))
    (txt : List Char) (ci : Bool) (term : String) : Except String (List (Nat × Nat)) :=
  if hasMeta term.toList then engineFind term txt
  else .ok (wordFindAll txt term.toList ci)

/-- src/app.py lines 163-180, function preannotate_doc: walk the rules in
order, append one gazetteer annotation per match to the annotation list of the
document, and count the additions.  An exception from a malformed verbatim
pattern propagates immediately: the error result carries the annotation list as
it stands at that point (appends so far are kept, nothing is rolled back) and
the remaining rules are never applied. -/
def preannotate_doc (engineFind : String → List Char → Except String (List (Nat × Nat)))
    (docId : String) (txt : List Char) (rules : List (String × String)) (ci : Bool)
    (anns : List Annotation) : Except (List Annotation × String) (List Annotation × Nat) :=
  match rules with
  | [] => .ok (anns, 0)
  | (lbl, term) :: rest =>
    match ruleSpans engineFind txt ci term with
    | .error msg => .error (anns, msg)
    | .ok spans =>
      match preannotate_doc engineFind docId txt rest ci
          (anns ++ spans.map (mkGazAnn docId txt lbl)) with
      | .error e => .error e
      | .ok (finalAnns, n) => .ok (finalAnns, spans.length + n)

/-- The annotation list of the document after a preannotate_doc call, whether
it ended normally or by exception. -/
def outAnnotations : Except (List Annotation × String) (List Annotation × Nat) →
    List Annotation
  | .error e => e.1
  | .ok r => r.1

/-- src/app.py lines 182-187, the built-in PHI rule list (label, verbatim
pattern); every pattern contains metacharacters, so all four take the verbatim
engine path of ruleSpans. -/
def PHI_RULES : List (String × String) :=
  [ ("PHI_DATE",
     "\\b(?:\\d\x7b1,2\x7d[/-]\\d\x7b1,2\x7d[/-]\\d\x7b2,4\x7d|\\d\x7b4\x7d[/-]\\d\x7b1,2\x7d[/-]\\d\x7b1,2\x7d|(?:Jan|Feb|Mar|Apr|May|Jun|Jul|Aug|Sep|Sept|Oct|Nov|Dec)[a-z]*\\s+\\d\x7b1,2\x7d,?\\s+\\d\x7b2,4\x7d)\\b"),
    ("PHI_PHONE",
     "\\b(?:\\+?1[-.\\s]?)?(?:\\(?\\d\x7b3\x7d\\)?[-.\\s]?)\\d\x7b3\x7d[-.\\s]?\\d\x7b4\x7d\\b"),
    ("PHI_EMAIL",
     "\\b[A-Za-z0-9._%+-]+@[A-Za-z0-9.-]+\\.[A-Za-z]\x7b2,\x7d\\b"),
    ("PHI_MRN",
     "\\b(?:MRN[:#]?\\s*)?\\d\x7b7,\x7d\\b") ]

-- ------------------------- add annotation by indices (src/app.py lines 671-687) -------------------------

/-- The add-by-indices operation: the two number widgets only accept values in
[0, len(text)] (min_value=0, max_value=len(text) at lines 674-676), modelled by
the first guard; within that range the handler at lines 680-687 appends only
when start < end and otherwise warns and leaves the list unchanged. -/
def add_annotation_indices (docId : String) (txt : List Char) (anns : List Annotation)
    (s e : Int) (lbl : String) : List Annotation × Option String :=
  if s < 0 ∨ (txt.length : Int) < s ∨ e < 0 ∨ (txt.length : Int) < e then
    (anns, some "number input rejects values outside the range 0..len(text)")
  else if s < e then
    (anns ++ [{ doc_id := docId, start := s.toNat, end_ := e.toNat,
                text := slicePy txt s.toNat e.toNat, label := lbl, attrs := [] }], none)
  else
    (anns, some "End index must be greater than start index.")

-- ------------------------- add relation (src/app.py lines 715-722) -------------------------

/-- The add-relation handler: equal head and tail indices are rejected with a
warning and nothing is appended; otherwise Relation(doc_id, hi, ti, label) is
appended.  The indices come from two select widgets whose options enumerate the
annotation list of the document, so they are always below its length. -/
def addRelation (rels : List Relation) (docId : String) (hi ti : Nat) (lbl : String) :
    List Relation × Option String :=
  if hi = ti then (rels, some "Pick two different annotations.")
  else (rels ++ [{ doc_id := docId, head_idx := hi, tail_idx := ti, label := lbl }], none)

/-- Two annotations, enough for the relation widgets to appear. -/
def annPair : List Annotation :=
  [ { doc_id := "doc_0001", start := 0, end_ := 1, text := ['a'], label := "Symptom", attrs := [] },
    { doc_id := "doc_0001", start := 2, end_ := 3, text := ['b'], label := "Test", attrs := [] } ]

-- ------------------------- workspace codec (src/app.py lines 91-112) -------------------------

/-- The JSON record asdict produces for an Annotation. -/
structure AnnRec where
  doc_id : String
  start : Nat
  end_ : Nat
  text : List Char
  label : String
  attrs : List (String × String)
  deriving DecidableEq

/-- The JSON record asdict produces for a Relation. -/
structure RelRec where
  doc_id : String
  head_idx : Nat
  tail_idx : Nat
  label : String
  deriving DecidableEq

/-- asdict on an Annotation. -/
def annAsdict (a : Annotation) : AnnRec :=
  { doc_id := a.doc_id, start := a.start, end_ := a.end_, text := a.text,
    label := a.label, attrs := a.attrs }

/-- Annotation(**record). -/
def annOfDict (r : AnnRec) : Annotation :=
  { doc_id := r.doc_id, start := r.start, end_ := r.end_, text := r.text,
    label := r.label, attrs := r.attrs }

/-- asdict on a Relation. -/
def relAsdict (r : Relation) : RelRec :=
  { doc_id := r.doc_id, head_idx := r.head_idx, tail_idx := r.tail_idx, label := r.label }

/-- Relation(**record). -/
def relOfDict (r : RelRec) : Relation :=
  { doc_id := r.doc_id, head_idx := r.head_idx, tail_idx := r.tail_idx, label := r.label }

/-- The structured workspace document of src/app.py lines 91-102: version,
docs, anns as records, labels, and relations rebuilt over exactly the doc ids,
each with get(k, default empty list). -/
structure Payload where
  version : Nat
  docs : List (String × String)
  anns : List (String × List AnnRec)
  labels : List String
  relations : List (String × List RelRec)

/-- src/app.py lines 91-102, workspace_to_json up to the external JSON dump:
the payload dict it builds. -/
def workspace_to_json (docs : List (String × String))
    (anns : List (String × List Annotation)) (labels : List String)
    (relations : List (String × List Relation)) : Payload :=
  { version := 2
    docs := docs
    anns := anns.map (fun p => (p.1, p.2.map annAsdict))
    labels := labels
    relations := docs.map (fun p => (p.1, (dictGetD relations p.1 []).map relAsdict)) }

/-- src/app.py lines 104-112, workspace_from_json after the external JSON
parse: docs, anns and labels are returned, relations are stored back into the
session; here all four are returned as a tuple. -/
def workspace_from_json (payload : Payload) :
    List (String × String) × List (String × List Annotation) × List String ×
      List (String × List Relation) :=
  (payload.docs,
   payload.anns.map (fun p => (p.1, p.2.map annOfDict)),
   payload.labels,
   payload.relations.map (fun p => (p.1, p.2.map relOfDict)))

-- ------------------------- helper lemmas: dict operations -------------------------

theorem dictGet_dictPop {β : Type} (m : List (String × β)) (k : String) :
    dictGet (dictPop m k) k = none := by
  induction m with
  | nil => rfl
  | cons p t ih =>
    by_cases h : p.1 = k
    · simp [dictPop, h, ih]
    · simp [dictPop, dictGet, h, ih]

theorem dictPop_of_absent {β : Type} (m : List (String × β)) (k : String)
    (h : dictGet m k = none) : dictPop m k = m := by
  induction m with
  | nil => rfl
  | cons p t ih =>
    by_cases hp : p.1 = k
    · simp [dictGet, hp] at h
    · simp only [dictGet, hp, if_neg hp] at h
      simp [dictPop, hp, ih h]

theorem dictSet_of_absent {β : Type} (m : List (String × β)) (k : String) (v : β)
    (h : dictGet m k = none) : dictSet m k v = m ++ [(k, v)] := by
  induction m with
  | nil => rfl
  | cons p t ih =>
    by_cases hp : p.1 = k
    · simp [dictGet, hp] at h
    · simp only [dictGet, hp, if_neg hp] at h
      simp [dictSet, hp, ih h]

theorem dictSetdefault_of_absent {β : Type} (m : List (String × β)) (k : String) (v : β)
    (h : dictGet m k = none) : dictSetdefault m k v = m ++ [(k, v)] := by
  simp [dictSetdefault, h]

theorem dictGet_map_key {γ : Type} (f : String → γ) :
    ∀ (l : List (String × String)) (k : String), (dictGet l k).isSome = true →
      dictGet (l.map (fun p => (p.1, f p.1))) k = some (f k) := by
  intro l
  induction l with
  | nil => intro k h; simp [dictGet] at h
  | cons p t ih =>
    intro k h
    by_cases hp : p.1 = k
    · simp [dictGet, hp]
    · simp only [dictGet, hp, if_neg hp] at h
      simp only [List.map_cons, dictGet, hp, if_neg hp]
      exact ih k h

-- ------------------------- helper lemmas: list maps -------------------------

theorem map_roundtrip {β γ : Type} (f : β → γ) (g : γ → β) (h : ∀ b, g (f b) = b) :
    ∀ l : List β, (l.map f).map g = l := by
  intro l
  induction l with
  | nil => rfl
  | cons b t ih => simp only [List.map_cons, h b, ih]

theorem map_pair_roundtrip {β γ : Type} (f : β → γ) (g : γ → β) (h : ∀ b, g (f b) = b) :
    ∀ l : List (String × List β),
      (l.map (fun p => (p.1, p.2.map f))).map (fun p => (p.1, p.2.map g)) = l := by
  intro l
  induction l with
  | nil => rfl
  | cons p t ih => simp only [List.map_cons, map_roundtrip f g h p.2, ih]

theorem map_pair_comp {γ δ : Type} (l : List (String × String)) (f : String → γ)
    (g : γ → δ) :
    (l.map (fun p => (p.1, f p.1))).map (fun p => (p.1, g p.2))
      = l.map (fun p => (p.1, g (f p.1))) := by
  induction l with
  | nil => rfl
  | cons p t ih => simp only [List.map_cons, ih]

-- ------------------------- helper lemmas: find_all scan -------------------------

theorem findAllAux_mem (hay nd : List Char) :
    ∀ (fuel i : Nat) (p : Nat × Nat), p ∈ findAllAux hay nd i fuel →
      i ≤ p.1 ∧ p.2 = p.1 + nd.length ∧ matchesAt hay nd p.1 = true ∧
        p.1 + nd.length ≤ hay.length := by
  intro fuel
  induction fuel with
  | zero => intro i p hp; simp [findAllAux] at hp
  | succ fuel ih =>
    intro i p hp
    simp only [findAllAux] at hp
    by_cases hle : i + nd.length ≤ hay.length
    · rw [if_pos hle] at hp
      by_cases hm : matchesAt hay nd i = true
      · rw [if_pos hm] at hp
        rcases List.mem_cons.mp hp with h | h
        · subst h; exact ⟨Nat.le_refl _, rfl, hm, hle⟩
        · obtain ⟨h1, h2, h3, h4⟩ := ih (i + nd.length) p h
          exact ⟨by omega, h2, h3, h4⟩
      · rw [if_neg hm] at hp
        obtain ⟨h1, h2, h3, h4⟩ := ih (i + 1) p hp
        exact ⟨by omega, h2, h3, h4⟩
    · rw [if_neg hle] at hp
      simp at hp

theorem findAllAux_pairwise (hay nd : List Char) :
    ∀ (fuel i : Nat),
      List.Pairwise (fun p q : Nat × Nat => p.1 ≤ q.1 ∧ p.2 ≤ q.1)
        (findAllAux hay nd i fuel) := by
  intro fuel
  induction fuel with
  | zero => intro i; simp [findAllAux]
  | succ fuel ih =>
    intro i
    simp only [findAllAux]
    by_cases hle : i + nd.length ≤ hay.length
    · rw [if_pos hle]
      by_cases hm : matchesAt hay nd i = true
      · rw [if_pos hm]
        refine List.Pairwise.cons ?_ (ih (i + nd.length))
        intro q hq
        obtain ⟨h1, -, -, -⟩ := findAllAux_mem hay nd fuel (i + nd.length) q hq
        exact ⟨Nat.le_trans (Nat.le_add_right _ _) h1, h1⟩
      · rw [if_neg hm]; exact ih (i + 1)
    · rw [if_neg hle]; exact List.Pairwise.nil

theorem findAllAux_complete (hay nd : List Char) (hL : 1 ≤ nd.length) :
    ∀ (fuel i j : Nat), hay.length + 1 ≤ i + fuel → i ≤ j →
      j + nd.length ≤ hay.length → matchesAt hay nd j = true →
      ∃ p, p ∈ findAllAux hay nd i fuel ∧ p.1 ≤ j ∧ j < p.2 := by
  intro fuel
  induction fuel with
  | zero => intro i j hfuel hij hjb hm; exfalso; omega
  | succ fuel ih =>
    intro i j hfuel hij hjb hm
    simp only [findAllAux]
    by_cases hle : i + nd.length ≤ hay.length
    · rw [if_pos hle]
      by_cases hmi : matchesAt hay nd i = true
      · rw [if_pos hmi]
        by_cases hj : j < i + nd.length
        · exact ⟨(i, i + nd.length), List.mem_cons_self _ _, hij, hj⟩
        · obtain ⟨p, hp, h1, h2⟩ := ih (i + nd.length) j (by omega) (by omega) hjb hm
          exact ⟨p, List.mem_cons_of_mem _ hp, h1, h2⟩
      · rw [if_neg hmi]
        have hne : i ≠ j := by
          intro h
          exact hmi (h ▸ hm)
        exact ih (i + 1) j (by omega) (by omega) hjb hm
    · exfalso; omega

-- ------------------------- C1 -------------------------

/-- C1: for a document of length L, any requested index pair with start < 0,
end > L or start > end makes the add-by-indices operation fail (a warning is
produced) and the annotation list of the document is unchanged. -/
theorem add_annotation_indices_validates (docId lbl : String) (txt : List Char)
    (anns : List Annotation) (s e : Int)
    (h : s < 0 ∨ (txt.length : Int) < e ∨ e < s) :
    (add_annotation_indices docId txt anns s e lbl).1 = anns
    ∧ (add_annotation_indices docId txt anns s e lbl).2.isSome = true := by
  unfold add_annotation_indices
  by_cases h1 : s < 0 ∨ (txt.length : Int) < s ∨ e < 0 ∨ (txt.length : Int) < e
  · rw [if_pos h1]; exact ⟨rfl, rfl⟩
  · rw [if_neg h1]
    push_neg at h1
    have hse : ¬ s < e := by
      rcases h with h | h | h
      · omega
      · omega
      · omega
    rw [if_neg hse]
    exact ⟨rfl, rfl⟩

/-- C1 witness: a concrete rejected request, start = -1 on a two-character text. -/
theorem add_annotation_indices_validates_witness :
    (add_annotation_indices "doc_0001" ("ab".toList) [] (-1) 1 "Diagnosis").1 = []
    ∧ (add_annotation_indices "doc_0001" ("ab".toList) [] (-1) 1 "Diagnosis").2.isSome = true :=
  add_annotation_indices_validates "doc_0001" "Diagnosis" ("ab".toList) [] (-1) 1
    (Or.inl (by decide))

-- ------------------------- C2 -------------------------

/-- C2 counterexample: deleting the only document removes its text but leaves
its transient search state in place, so a later lookup of the search table for
that id still finds the stale entry. -/
theorem removeDocument_search_stale_cex :
    dictGet (removeDocument staleSearchStore "doc_0001").docs "doc_0001" = none
    ∧ dictGet (removeDocument staleSearchStore "doc_0001").search "doc_0001"
        = some { term := "te", positions := [(0, 2)], i := 0 } := by
  constructor
  · rfl
  · rfl

/-- C2 amended: removeDocument deletes the text, the annotation list and the
relation list of the id and is a no-op on an id absent from all three tables,
but it leaves the search table exactly as it was, so stale transient match
state survives the deletion. -/
theorem removeDocument_spec (st : Store) (docId : String) :
    dictGet (removeDocument st docId).docs docId = none
    ∧ dictGet (removeDocument st docId).anns docId = none
    ∧ dictGet (removeDocument st docId).relations docId = none
    ∧ (removeDocument st docId).search = st.search
    ∧ (dictGet st.docs docId = none → dictGet st.anns docId = none →
        dictGet st.relations docId = none → removeDocument st docId = st) := by
  refine ⟨dictGet_dictPop _ _, dictGet_dictPop _ _, dictGet_dictPop _ _, rfl, ?_⟩
  intro h1 h2 h3
  unfold removeDocument
  rw [dictPop_of_absent _ _ h1, dictPop_of_absent _ _ h2, dictPop_of_absent _ _ h3]

/-- C2 witness: deleting an absent id from the empty store changes nothing. -/
theorem removeDocument_spec_witness :
    removeDocument emptyStore "doc_0001" = emptyStore :=
  (removeDocument_spec emptyStore "doc_0001").2.2.2.2 rfl rfl rfl

-- ------------------------- C5 -------------------------

/-- C5 counterexample: after adding doc_0001 and doc_0002 and deleting
doc_0001, the store holds one document, so the next add computes the id
doc_0002 again and overwrites the text of the surviving document instead of
allocating a fresh id. -/
theorem add_doc_collision_cex :
    dictGet storeB.docs "doc_0002" = some "t2"
    ∧ dictGet storeC.docs "doc_0002" = some "t3"
    ∧ storeC.docs.length = 1 := by
  refine ⟨rfl, rfl, rfl⟩

/-- C5 amended: add_doc derives the id doc_(N+1 zero-padded) from the current
document count N; only when that id is absent from the docs, anns and
relations tables does the call append a fresh document with the given text and
a fresh empty annotation list, leaving all other entries and the relations
table unchanged (the relation list of the new id is empty only by the
get-with-default reading, nothing is initialized).  After deletions the
generated id can equal that of a surviving document, and then the text is
overwritten and the stale annotation list is kept. -/
theorem add_doc_fresh (st : Store) (text : String)
    (hd : dictGet st.docs (fmtDocId (st.docs.length + 1)) = none)
    (ha : dictGet st.anns (fmtDocId (st.docs.length + 1)) = none)
    (hr : dictGet st.relations (fmtDocId (st.docs.length + 1)) = none) :
    (add_doc st text).docs = st.docs ++ [(fmtDocId (st.docs.length + 1), text)]
    ∧ (add_doc st text).anns = st.anns ++ [(fmtDocId (st.docs.length + 1), [])]
    ∧ (add_doc st text).relations = st.relations
    ∧ dictGetD (add_doc st text).relations (fmtDocId (st.docs.length + 1)) [] = [] := by
  refine ⟨?_, ?_, rfl, ?_⟩
  · exact dictSet_of_absent _ _ _ hd
  · exact dictSetdefault_of_absent _ _ _ ha
  · show dictGetD st.relations (fmtDocId (st.docs.length + 1)) [] = []
    simp [dictGetD, hr]

/-- C5 witness: the first add on the empty store appends doc_0001. -/
theorem add_doc_fresh_witness :
    (add_doc emptyStore "note").docs
        = emptyStore.docs ++ [(fmtDocId (emptyStore.docs.length + 1), "note")]
    ∧ (add_doc emptyStore "note").anns
        = emptyStore.anns ++ [(fmtDocId (emptyStore.docs.length + 1), [])]
    ∧ (add_doc emptyStore "note").relations = emptyStore.relations
    ∧ dictGetD (add_doc emptyStore "note").relations
        (fmtDocId (emptyStore.docs.length + 1)) [] = [] :=
  add_doc_fresh emptyStore "note" rfl rfl rfl

-- ------------------------- C6 -------------------------

/-- C6: with both indices drawn from the select widgets, which enumerate the
annotation list of the document and hence stay below its length, the
add-relation handler rejects equal head and tail with a warning and appends
nothing, and on success appends exactly the requested relation; every relation
in the resulting list is either an old one or has distinct, in-bounds indices. -/
theorem addRelation_validates (anns : List Annotation) (rels : List Relation)
    (docId lbl : String) (hi ti : Nat)
    (hhi : hi < anns.length) (hti : ti < anns.length) :
    (hi = ti → addRelation rels docId hi ti lbl = (rels, some "Pick two different annotations."))
    ∧ (hi ≠ ti →
        addRelation rels docId hi ti lbl
          = (rels ++ [{ doc_id := docId, head_idx := hi, tail_idx := ti, label := lbl }], none)
        ∧ ∀ r, r ∈ (addRelation rels docId hi ti lbl).1 →
            r ∈ rels ∨ (r.head_idx ≠ r.tail_idx ∧ r.head_idx < anns.length ∧
              r.tail_idx < anns.length)) := by
  constructor
  · intro h
    simp [addRelation, h]
  · intro h
    refine ⟨by simp [addRelation, h], ?_⟩
    intro r hr
    simp only [addRelation, if_neg h] at hr
    rcases List.mem_append.mp hr with h1 | h1
    · exact Or.inl h1
    · right
      rcases List.mem_singleton.mp h1 with rfl
      exact ⟨h, hhi, hti⟩

/-- C6 witness: with two annotations present, picking the same span for head
and tail is rejected and the relation list stays empty. -/
theorem addRelation_validates_witness :
    addRelation [] "doc_0001" 1 1 "relates_to" = ([], some "Pick two different annotations.") :=
  (addRelation_validates annPair [] "doc_0001" "relates_to" 1 1 (by decide) (by decide)).1 rfl

-- ------------------------- C3 -------------------------

/-- C3: find_all returns matches in non-decreasing start order, every returned
pair (s, e) satisfies haystack[s:e].lower() = needle.lower(), and an empty or
whitespace-only needle yields the empty sequence. -/
theorem find_all_ok (hay nd : List Char) :
    List.Pairwise (fun p q : Nat × Nat => p.1 ≤ q.1) (find_all hay nd)
    ∧ (∀ p, p ∈ find_all hay nd → lowerStr (slicePy hay p.1 p.2) = lowerStr nd)
    ∧ ((nd.isEmpty || nd.all isSpacePy) = true → find_all hay nd = []) := by
  refine ⟨?_, ?_, ?_⟩
  · unfold find_all
    by_cases hb : (nd.isEmpty || nd.all isSpacePy) = true
    · rw [if_pos hb]; exact List.Pairwise.nil
    · rw [if_neg hb]
      exact List.Pairwise.imp (fun h => h.1) (findAllAux_pairwise hay nd _ 0)
  · intro p hp
    unfold find_all at hp
    by_cases hb : (nd.isEmpty || nd.all isSpacePy) = true
    · rw [if_pos hb] at hp; simp at hp
    · rw [if_neg hb] at hp
      obtain ⟨-, h2, h3, -⟩ := findAllAux_mem hay nd _ 0 p hp
      simp only [matchesAt, beq_iff_eq] at h3
      rw [h2]
      exact h3
  · intro hb
    unfold find_all
    rw [if_pos hb]

/-- C3 witness: a whitespace-only needle yields the empty match list. -/
theorem find_all_ok_witness : find_all ("abc".toList) [' '] = [] :=
  (find_all_ok ("abc".toList) [' ']).2.2 (by decide)

-- ------------------------- C4 -------------------------

/-- C4 counterexample: against haystack aaa with needle aa the scan returns
only (0, 2); the overlapping occurrence starting at position 1 is suppressed,
so (1, 3) is not returned even though the needle occurs there. -/
theorem find_all_overlap_cex :
    (0, 2) ∈ find_all ("aaa".toList) ("aa".toList)
    ∧ ¬ ((1, 3) ∈ find_all ("aaa".toList) ("aa".toList))
    ∧ matchesAt ("aaa".toList) ("aa".toList) 1 = true := by
  decide

/-- C4 amended: find_all does suppress overlapping occurrences.  For a
non-blank needle the returned matches are pairwise non-overlapping (each
previous match ends at or before the next start), and every position at which
a full case-insensitive occurrence of the needle begins is covered by some
returned match: either it is the start of a returned match or it lies strictly
inside one, in which case it is suppressed. -/
theorem find_all_nonoverlapping (hay nd : List Char)
    (hnb : (nd.isEmpty || nd.all isSpacePy) = false) :
    List.Pairwise (fun p q : Nat × Nat => p.2 ≤ q.1) (find_all hay nd)
    ∧ (∀ j, j + nd.length ≤ hay.length → matchesAt hay nd j = true →
        ∃ p, p ∈ find_all hay nd ∧ p.1 ≤ j ∧ j < p.2) := by
  have hne : ¬ ((nd.isEmpty || nd.all isSpacePy) = true) := by simp [hnb]
  have hL : 1 ≤ nd.length := by
    cases nd with
    | nil => simp at hnb
    | cons a t => simp
  constructor
  · unfold find_all
    rw [if_neg hne]
    exact List.Pairwise.imp (fun h => h.2) (findAllAux_pairwise hay nd _ 0)
  · intro j hjb hm
    unfold find_all
    rw [if_neg hne]
    exact findAllAux_complete hay nd hL _ 0 j (by omega) (Nat.zero_le _) hjb hm

/-- C4 witness: the matches of aa in aaa are pairwise non-overlapping. -/
theorem find_all_nonoverlapping_witness :
    List.Pairwise (fun p q : Nat × Nat => p.2 ≤ q.1)
      (find_all ("aaa".toList) ("aa".toList)) :=
  (find_all_nonoverlapping ("aaa".toList) ("aa".toList) (by decide)).1

-- ------------------------- C7 -------------------------

/-- C7: whole-word literal rule matching, for any verbatim-pattern engine
(the term aspirin carries no metacharacter, so the engine is never consulted):
the single rule (Medication, aspirin) applied to the text baby aspirin daily
adds exactly one annotation, spanning offsets 5 to 12 where aspirin occurs,
while applied to acetylaspirin it adds none, because the occurrence there is
preceded by the word character l. -/
theorem preannotate_whole_word
    (engineFind : String → List Char → Except String (List (Nat × Nat))) :
    preannotate_doc engineFind "doc_0001" ("baby aspirin daily".toList)
        [("Medication", "aspirin")] true []
      = .ok ([{ doc_id := "doc_0001", start := 5, end_ := 12, text := "aspirin".toList,
                label := "Medication", attrs := [("source", "gazetteer")] }], 1)
    ∧ preannotate_doc engineFind "doc_0001" ("acetylaspirin".toList)
        [("Medication", "aspirin")] true []
      = .ok ([], 0) :=
  ⟨rfl, rfl⟩

-- ------------------------- C8 -------------------------

/-- C8 counterexample: with a rule list whose first pattern is malformed (the
engine raises on it) and whose second rule is the plain term aspirin, the run
aborts at the first rule with no annotation added at all, even though the
second rule has a match in the text, so the remaining rules of the batch are
not applied. -/
theorem preannotate_abort_cex :
    preannotate_doc (fun _ _ => Except.error "bad pattern") "doc_0001"
        ("baby aspirin daily".toList) [("X", "["), ("Medication", "aspirin")] true []
      = .error ([], "bad pattern")
    ∧ wordFindAll ("baby aspirin daily".toList) ("aspirin".toList) true = [(5, 12)] :=
  ⟨rfl, rfl⟩

/-- C8 amended: a malformed verbatim pattern does not get skipped: the
exception it raises aborts the whole preannotate_doc call at that rule.  The
annotations added by the rules before it are kept (no rollback), the error
message is surfaced once, and the rules after it are never applied — the
result does not depend on them. -/
theorem preannotate_bad_pattern_aborts
    (engineFind : String → List Char → Except String (List (Nat × Nat)))
    (docId : String) (txt : List Char) (ci : Bool) (anns : List Annotation)
    (goodLbl goodTerm badLbl badPat : String) (rest : List (String × String)) (msg : String)
    (hgood : hasMeta goodTerm.toList = false)
    (hbad : hasMeta badPat.toList = true)
    (herr : engineFind badPat txt = .error msg) :
    preannotate_doc engineFind docId txt ((goodLbl, goodTerm) :: (badLbl, badPat) :: rest) ci anns
      = .error (anns ++ (wordFindAll txt goodTerm.toList ci).map (mkGazAnn docId txt goodLbl),
                msg) := by
  have hg : ruleSpans engineFind txt ci goodTerm = .ok (wordFindAll txt goodTerm.toList ci) := by
    unfold ruleSpans
    rw [hgood]
    simp
  have hb : ruleSpans engineFind txt ci badPat = .error msg := by
    unfold ruleSpans
    rw [hbad]
    simpa using herr
  simp [preannotate_doc, hg, hb]

/-- C8 witness: a concrete aborted batch, good rule first, bad pattern second,
a further rule after the bad one that is never reached. -/
theorem preannotate_bad_pattern_aborts_witness :
    preannotate_doc (fun _ _ => Except.error "unbalanced parenthesis") "doc_0001"
        ("baby aspirin daily".toList)
        [("Medication", "aspirin"), ("X", "("), ("Test", "daily")] true []
      = .error ([] ++ (wordFindAll ("baby aspirin daily".toList) ("aspirin".toList) true).map
                  (mkGazAnn "doc_0001" ("baby aspirin daily".toList) "Medication"),
                "unbalanced parenthesis") :=
  preannotate_bad_pattern_aborts (fun _ _ => Except.error "unbalanced parenthesis")
    "doc_0001" ("baby aspirin daily".toList) true [] "Medication" "aspirin" "X" "("
    [("Test", "daily")] "unbalanced parenthesis" (by decide) (by decide) rfl

-- ------------------------- C10 -------------------------

/-- Every preannotate_doc run splits the final annotation list of the document
into the pre-existing entries followed by the newly added ones, and every new
entry carries exactly the gazetteer provenance attrs and the text slice of its
span; this holds for every rule list and every verbatim-pattern engine. -/
theorem preannotate_out_append
    (engineFind : String → List Char → Except String (List (Nat × Nat)))
    (docId : String) (txt : List Char) (ci : Bool) :
    ∀ (rules : List (String × String)) (anns : List Annotation),
      ∃ newAnns, outAnnotations (preannotate_doc engineFind docId txt rules ci anns)
          = anns ++ newAnns
        ∧ ∀ a, a ∈ newAnns → a.attrs = [("source", "gazetteer")]
            ∧ a.text = slicePy txt a.start a.end_ := by
  intro rules
  induction rules with
  | nil =>
    intro anns
    exact ⟨[], by simp [preannotate_doc, outAnnotations], by simp⟩
  | cons r rest ih =>
    intro anns
    obtain ⟨lbl, term⟩ := r
    cases hrs : ruleSpans engineFind txt ci term with
    | error msg =>
      refine ⟨[], ?_, by simp⟩
      simp [preannotate_doc, hrs, outAnnotations]
    | ok spans =>
      obtain ⟨new2, hout, hprop⟩ := ih (anns ++ spans.map (mkGazAnn docId txt lbl))
      refine ⟨spans.map (mkGazAnn docId txt lbl) ++ new2, ?_, ?_⟩
      · simp only [preannotate_doc, hrs]
        cases hrec : preannotate_doc engineFind docId txt rest ci
            (anns ++ spans.map (mkGazAnn docId txt lbl)) with
        | error e =>
          rw [hrec] at hout
          simpa [outAnnotations, List.append_assoc] using hout
        | ok pr =>
          obtain ⟨fin, n⟩ := pr
          rw [hrec] at hout
          simpa [outAnnotations, List.append_assoc] using hout
      · intro a ha
        rcases List.mem_append.mp ha with h | h
        · obtain ⟨p, hp, rfl⟩ := List.mem_map.mp h
          exact ⟨rfl, rfl⟩
        · exact hprop a h

/-- C10: for every rule list (the built-in PHI rule list included) and every
verbatim-pattern engine, preannotate_doc only appends: the first entries of the
resulting annotation list are the pre-existing ones, and every appended
annotation has attrs exactly source gazetteer — no caller-supplied provenance
exists — and text equal to the document text sliced at its span. -/
theorem preannotate_provenance
    (engineFind : String → List Char → Except String (List (Nat × Nat)))
    (docId : String) (txt : List Char) (rules : List (String × String)) (ci : Bool)
    (anns : List Annotation) :
    (outAnnotations (preannotate_doc engineFind docId txt rules ci anns)).take anns.length
        = anns
    ∧ ∀ a, a ∈ (outAnnotations (preannotate_doc engineFind docId txt rules ci anns)).drop
          anns.length →
        a.attrs = [("source", "gazetteer")] ∧ a.text = slicePy txt a.start a.end_ := by
  obtain ⟨newAnns, hout, hprop⟩ := preannotate_out_append engineFind docId txt ci rules anns
  rw [hout]
  constructor
  · exact List.take_left anns newAnns
  · intro a ha
    rw [List.drop_left] at ha
    exact hprop a ha

/-- C10 witness: the annotation the aspirin rule adds to baby aspirin daily
carries the gazetteer provenance and the sliced text. -/
theorem preannotate_provenance_witness :
    ({ doc_id := "doc_0001", start := 5, end_ := 12, text := "aspirin".toList,
       label := "Medication", attrs := [("source", "gazetteer")] } : Annotation).attrs
        = [("source", "gazetteer")]
    ∧ ({ doc_id := "doc_0001", start := 5, end_ := 12, text := "aspirin".toList,
         label := "Medication", attrs := [("source", "gazetteer")] } : Annotation).text
        = slicePy ("baby aspirin daily".toList) 5 12 :=
  (preannotate_provenance (fun _ _ => Except.error "unused") "doc_0001"
      ("baby aspirin daily".toList) [("Medication", "aspirin")] true []).2 _ (by decide)

-- ------------------------- C9 -------------------------

theorem map_ext_fun {α β : Type} (f g : α → β) (h : ∀ a, f a = g a) :
    ∀ l : List α, l.map f = l.map g := by
  intro l
  induction l with
  | nil => rfl
  | cons a t ih => simp only [List.map_cons, h a, ih]

/-- C9: serializing the store state with the workspace codec and deserializing
the result reproduces the documents, the per-document annotation lists with
their attrs in order, and the label list exactly, and for every document id the
per-document relation list (read with get-and-default, as the codec itself
reads it) is reproduced in order. -/
theorem workspace_roundtrip (docs : List (String × String))
    (anns : List (String × List Annotation)) (labels : List String)
    (relations : List (String × List Relation)) :
    (workspace_from_json (workspace_to_json docs anns labels relations)).1 = docs
    ∧ (workspace_from_json (workspace_to_json docs anns labels relations)).2.1 = anns
    ∧ (workspace_from_json (workspace_to_json docs anns labels relations)).2.2.1 = labels
    ∧ ∀ k, (dictGet docs k).isSome = true →
        dictGetD (workspace_from_json (workspace_to_json docs anns labels relations)).2.2.2 k []
          = dictGetD relations k [] := by
  refine ⟨rfl, ?_, rfl, ?_⟩
  · exact map_pair_roundtrip annAsdict annOfDict (fun a => rfl) anns
  · have hrel : (workspace_from_json (workspace_to_json docs anns labels relations)).2.2.2
        = docs.map (fun p => (p.1, dictGetD relations p.1 [])) := by
      show (docs.map (fun p => (p.1, (dictGetD relations p.1 []).map relAsdict))).map
          (fun p => (p.1, p.2.map relOfDict))
        = docs.map (fun p => (p.1, dictGetD relations p.1 []))
      rw [map_pair_comp docs (fun k => (dictGetD relations k []).map relAsdict)
        (fun l => l.map relOfDict)]
      apply map_ext_fun
      intro p
      rw [map_roundtrip relAsdict relOfDict (fun r => rfl) (dictGetD relations p.1 [])]
    intro k hk
    rw [hrel]
    show (dictGet (docs.map (fun p => (p.1, dictGetD relations p.1 []))) k).getD []
      = dictGetD relations k []
    rw [dictGet_map_key (fun j => dictGetD relations j []) docs k hk]
    rfl

/-- C9 witness: a concrete one-document store round-trips its relation list. -/
theorem workspace_roundtrip_witness :
    dictGetD (workspace_from_json (workspace_to_json [("doc_0001", "ab")]
        ([] : List (String × List Annotation)) ["Diagnosis"]
        ([] : List (String × List Relation)))).2.2.2 "doc_0001" []
      = dictGetD ([] : List (String × List Relation)) "doc_0001" [] :=
  (workspace_roundtrip [("doc_0001", "ab")] [] ["Diagnosis"] []).2.2.2 "doc_0001" (by decide)
